import Mathlib

/-!
Shallow embedding of the BadgerDB-style buffer manager in `src/buffer.cpp`
(class `BufMgr`), together with theorems checking the natural-language
specification against it.

Modelling conventions:
* `File*` pointers become natural-number file identities; a descriptor's
  `file` field is `Option FileId` (`none` models a null pointer).
* The buffer hash table (`BufHashTbl`, an external collaborator whose source
  is not in the repository) is modelled as an association list keyed by
  (file, page); `lookup` returns the first match, `insert` prepends,
  `remove` deletes the first match.
* All external I/O calls (`File::readPage`, `writePage`, `allocatePage`,
  `deletePage`) and hash-table mutations are recorded in an event log so
  that claims about "exactly one read/write" and event ordering are
  expressible.
* The C++ `while` loop of `BufMgr::allocBuf` is embedded with explicit fuel;
  the loop performs at most `numBufs` reference-bit clearings plus
  `numBufs + 1` pin-skips plus one returning iteration, so fuel
  `2 * numBufs + 3` is never exhausted on well-formed states.
-/

abbrev FileId := Nat
abbrev PageId := Nat
abbrev FrameId := Nat

/-- Per-frame metadata, mirroring `BufDesc` of the BadgerDB buffer manager. -/
structure BufDesc where
  frameNo : FrameId
  file : Option FileId
  pageNo : PageId
  pinCnt : Nat
  valid : Bool
  refbit : Bool
  dirty : Bool
deriving DecidableEq, Repr

instance : Inhabited BufDesc :=
  ⟨{ frameNo := 0, file := none, pageNo := 0, pinCnt := 0,
     valid := false, refbit := false, dirty := false }⟩

/-- Observable events: file-layer calls and hash-table mutations, in the
order the buffer manager performs them. -/
inductive Ev where
  | read (f : FileId) (p : PageId)
  | write (f : Option FileId) (p : PageId)
  | allocp (f : FileId) (p : PageId)
  | deletep (f : FileId) (p : PageId)
  | hInsert (f : FileId) (p : PageId) (fr : FrameId)
  | hRemove (f : Option FileId) (p : PageId)
deriving DecidableEq, Repr

def Ev.isRead : Ev → Bool
  | .read _ _ => true
  | _ => false

def Ev.isWrite : Ev → Bool
  | .write _ _ => true
  | _ => false

def Ev.isDelete : Ev → Bool
  | .deletep _ _ => true
  | _ => false

def readCount (l : List Ev) : Nat := l.countP Ev.isRead
def writeCount (l : List Ev) : Nat := l.countP Ev.isWrite
def deleteCount (l : List Ev) : Nat := l.countP Ev.isDelete

/-- State of the `BufMgr` object: descriptor table, hash table (PageIndex),
clock hand, plus the ghost event log. -/
structure State where
  numBufs : Nat
  bufDescTable : List BufDesc
  hashTable : List ((FileId × PageId) × FrameId)
  clockHand : Nat
  log : List Ev
deriving DecidableEq, Repr

/-- Lookup of `BufHashTbl::lookup`: first entry with the given key.
Modelled from the spec: the PageIndex collaborator (`bufHashTbl.cpp` is not
in the repository) supports `lookup(key) -> frameId | NotFound`. -/
def htLookup (tbl : List ((FileId × PageId) × FrameId)) (f : FileId) (p : PageId) :
    Option FrameId :=
  match tbl with
  | [] => none
  | (k, fr) :: rest => if k = (f, p) then some fr else htLookup rest f p

/-- Removal of `BufHashTbl::remove`: drops the first entry with the key.
Modelled from the spec: the PageIndex collaborator supports `remove(key)`. -/
def htRemove (tbl : List ((FileId × PageId) × FrameId)) (f : FileId) (p : PageId) :
    List ((FileId × PageId) × FrameId) :=
  match tbl with
  | [] => []
  | (k, fr) :: rest => if k = (f, p) then rest else (k, fr) :: htRemove rest f p

/-- Remove keyed by a possibly-null file pointer (`bufDescTable[i].file`). -/
def htRemoveOpt (tbl : List ((FileId × PageId) × FrameId)) (f : Option FileId)
    (p : PageId) : List ((FileId × PageId) × FrameId) :=
  match f with
  | some f => htRemove tbl f p
  | none => tbl

/-- Decidable equality for `Except`, needed to evaluate results by `decide`. -/
instance {e a : Type} [DecidableEq e] [DecidableEq a] : DecidableEq (Except e a) :=
  fun x y =>
    match x, y with
    | .ok v, .ok w => if h : v = w then isTrue (by rw [h]) else isFalse (by simp [h])
    | .error v, .error w => if h : v = w then isTrue (by rw [h]) else isFalse (by simp [h])
    | .ok _, .error _ => isFalse (by simp)
    | .error _, .ok _ => isFalse (by simp)

/-- Errors thrown by `BufMgr`; `outOfFuel` marks fuel exhaustion of the
embedded loop and is unreachable from well-formed states. -/
inductive BufErr where
  | bufferExceeded
  | outOfFuel
  | pageNotPinned (f : FileId) (p : PageId) (fr : FrameId)
  | pagePinned (f : FileId) (p : PageId) (fr : FrameId)
  | badBuffer (fr : FrameId)
deriving DecidableEq, Repr

/-- Clock advance of `BufMgr::advanceClock`. -/
def advanceClock (s : State) : State :=
  { s with clockHand := (s.clockHand + 1) % s.numBufs }

/-- Loop body of `BufMgr::allocBuf` (the `while (count <= numBufs)` loop),
with explicit fuel. Returns the result, the final state, and the final
value of `count` (the number of pinned-frame skips performed). The
`hashTable->remove` for a clean victim is commented out in the source, so
the clean-victim branch leaves the hash table unchanged. -/
def allocLoop : Nat → Nat → State → (Except BufErr FrameId) × State × Nat
  | 0, count, s => (.error .outOfFuel, s, count)
  | fuel + 1, count, s =>
    if count ≤ s.numBufs then
      let t := advanceClock s
      let d := t.bufDescTable.getD t.clockHand default
      if d.valid then
        if d.refbit then
          allocLoop fuel count
            { t with bufDescTable :=
                t.bufDescTable.set t.clockHand { d with refbit := false } }
        else if 0 < d.pinCnt then
          allocLoop fuel (count + 1) t
        else if d.dirty then
          (.ok t.clockHand,
           { t with
              log := t.log ++ [Ev.write d.file d.pageNo, Ev.hRemove d.file d.pageNo],
              hashTable := htRemoveOpt t.hashTable d.file d.pageNo,
              bufDescTable :=
                t.bufDescTable.set t.clockHand { d with dirty := false } },
           count)
        else
          (.ok t.clockHand, t, count)
      else
        (.ok t.clockHand, t, count)
    else
      (.error .bufferExceeded, s, count)

/-- Replacement algorithm `BufMgr::allocBuf`; fuel `2 * numBufs + 3`
dominates the loop's worst case (see module comment). -/
def allocBuf (s : State) : (Except BufErr FrameId) × State × Nat :=
  allocLoop (2 * s.numBufs + 3) 0 s

/-- Descriptor initialization `BufDesc::Set(file, pageNo)`.
Modelled from the spec: `buffer.h` is not in the repository; the spec gives
`pinCount = 1`, `referenced = true`, `dirty = false`, `owner = file`,
`pageNumber = pageNumber`, `valid = true`. -/
def setDesc (i : FrameId) (f : FileId) (p : PageId) : BufDesc :=
  { frameNo := i, file := some f, pageNo := p, pinCnt := 1,
    valid := true, refbit := true, dirty := false }

/-- Descriptor reset `BufDesc::Clear()`.
Modelled from the spec: `buffer.h` is not in the repository; the spec gives
the unoccupied state `valid = false`, `owner = none`. -/
def clearDesc (i : FrameId) : BufDesc :=
  { frameNo := i, file := none, pageNo := 0, pinCnt := 0,
    valid := false, refbit := false, dirty := false }

/-- Embedding of `BufMgr::readPage`. A hit bumps the pin count and sets the
reference bit; a miss allocates a frame, reads from the file, inserts into
the hash table and initializes the descriptor. An exception from `allocBuf`
propagates with the side effects `allocBuf` already performed. -/
def readPage (f : FileId) (p : PageId) (s : State) :
    (Except BufErr FrameId) × State :=
  match htLookup s.hashTable f p with
  | some i =>
    let d := s.bufDescTable.getD i default
    (.ok i,
     { s with bufDescTable :=
        s.bufDescTable.set i { d with pinCnt := d.pinCnt + 1, refbit := true } })
  | none =>
    match allocBuf s with
    | (Except.ok v, s1, _) =>
      let s2 := { s1 with log := s1.log ++ [Ev.read f p] }
      let s3 := { s2 with hashTable := ((f, p), v) :: s2.hashTable,
                          log := s2.log ++ [Ev.hInsert f p v] }
      (.ok v, { s3 with bufDescTable := s3.bufDescTable.set v (setDesc v f p) })
    | (Except.error e, s1, _) => (.error e, s1)

/-- Embedding of `BufMgr::unPinPage`. A lookup miss (`HashNotFoundException`)
is caught and swallowed; a resident page with `pinCnt == 0` throws
`PageNotPinnedException`; otherwise the pin count is decremented and the
dirty flag is set when requested. -/
def unPinPage (f : FileId) (p : PageId) (dirty : Bool) (s : State) :
    (Except BufErr Unit) × State :=
  match htLookup s.hashTable f p with
  | some i =>
    let d := s.bufDescTable.getD i default
    if d.pinCnt = 0 then
      (.error (.pageNotPinned f p i), s)
    else
      let d1 := { d with pinCnt := d.pinCnt - 1 }
      let d2 := if dirty then { d1 with dirty := true } else d1
      (.ok (), { s with bufDescTable := s.bufDescTable.set i d2 })
  | none => (.ok (), s)

/-- Embedding of `BufMgr::allocPage`. The page number the external file
assigns in `file->allocatePage()` is passed in as the oracle `newP`. -/
def allocPage (f : FileId) (newP : PageId) (s : State) :
    (Except BufErr (PageId × FrameId)) × State :=
  let s0 := { s with log := s.log ++ [Ev.allocp f newP] }
  match allocBuf s0 with
  | (Except.ok fr, s1, _) =>
    let s2 := { s1 with hashTable := ((f, newP), fr) :: s1.hashTable,
                        log := s1.log ++ [Ev.hInsert f newP fr] }
    (.ok (newP, fr),
     { s2 with bufDescTable := s2.bufDescTable.set fr (setDesc fr f newP) })
  | (Except.error e, s1, _) => (.error e, s1)

/-- Loop of `BufMgr::flushFile`, with fuel equal to the number of frames
still to visit. The source copies the descriptor by value
(`BufDesc frame = bufDescTable[i];`), so the assignments `frame.dirty =
false` and `frame.Clear()` mutate only the local copy: the descriptor table
is never changed by this loop, while the write-back and the hash-table
removal are real effects. -/
def flushLoop (f : FileId) : Nat → Nat → State → (Except BufErr Unit) × State
  | 0, _, s => (.ok (), s)
  | fuel + 1, i, s =>
    if i < s.numBufs then
      let d := s.bufDescTable.getD i default
      if d.valid then
        if d.file = some f then
          if d.pinCnt ≠ 0 then
            (.error (.pagePinned f d.pageNo i), s)
          else
            let s1 := if d.dirty then
                { s with log := s.log ++ [Ev.write d.file d.pageNo] }
              else s
            let s2 := { s1 with
                hashTable := htRemoveOpt s1.hashTable d.file d.pageNo,
                log := s1.log ++ [Ev.hRemove d.file d.pageNo] }
            flushLoop f fuel (i + 1) s2
        else
          flushLoop f fuel (i + 1) s
      else
        (.error (.badBuffer i), s)
    else
      (.ok (), s)

/-- Embedding of `BufMgr::flushFile`: scans every frame in frame-id order. -/
def flushFile (f : FileId) (s : State) : (Except BufErr Unit) × State :=
  flushLoop f s.numBufs 0 s

/-- Embedding of `BufMgr::disposePage`. All four statements, including the
final `file->deletePage(PageNo)`, sit inside the `try` block; `catch (...)`
swallows everything. In particular a lookup miss skips the on-disk deletion
entirely. The oracle `delFails` says whether the `deletePage` call itself
throws; since it is the last statement and the exception is swallowed, the
resulting state is the same either way. -/
def disposePage (f : FileId) (p : PageId) (delFails : Bool) (s : State) : State :=
  match htLookup s.hashTable f p with
  | some i =>
    let s1 := { s with hashTable := htRemove s.hashTable f p,
                       log := s.log ++ [Ev.hRemove (some f) p] }
    let s2 := { s1 with bufDescTable := s1.bufDescTable.set i (clearDesc i) }
    let s3 := { s2 with log := s2.log ++ [Ev.deletep f p] }
    if delFails then s3 else s3
  | none => s

/-- Pool state right after `BufMgr::BufMgr(bufs)`: every descriptor has its
frame number set and `valid = false` (the remaining fields follow the
unoccupied state of the spec, `buffer.h` being absent), the hash table is
empty, and the clock hand is `bufs - 1`. -/
def initState (bufs : Nat) : State :=
  { numBufs := bufs,
    bufDescTable := (List.range bufs).map fun i => clearDesc i,
    hashTable := [],
    clockHand := bufs - 1,
    log := [] }

/-- Public operations of the buffer manager, used to build reachable states.
`alloc` and `dispose` carry the oracle inputs of the external file layer. -/
inductive Op where
  | read (f : FileId) (p : PageId)
  | alloc (f : FileId) (newP : PageId)
  | unpin (f : FileId) (p : PageId) (dirty : Bool)
  | flush (f : FileId)
  | dispose (f : FileId) (p : PageId) (delFails : Bool)
deriving DecidableEq, Repr

/-- One public call; the resulting state is kept whether or not the call
threw (C++ exceptions leave already-performed side effects in place). -/
def step (s : State) (op : Op) : State :=
  match op with
  | .read f p => (readPage f p s).2
  | .alloc f newP => (allocPage f newP s).2
  | .unpin f p d => (unPinPage f p d s).2
  | .flush f => (flushFile f s).2
  | .dispose f p df => disposePage f p df s

/-- State reached from a fresh pool of `bufs` frames by a call sequence. -/
def runOps (bufs : Nat) (ops : List Op) : State :=
  ops.foldl step (initState bufs)

/-- Structural well-formedness: positive pool size, descriptor table of the
right length, clock hand in range, and hash-table frame ids in range. -/
def WF (s : State) : Prop :=
  0 < s.numBufs ∧ s.bufDescTable.length = s.numBufs ∧
    s.clockHand < s.numBufs ∧ ∀ e ∈ s.hashTable, e.2 < s.numBufs

instance (s : State) : Decidable (WF s) := by
  unfold WF; infer_instance

/-- C1: the claim states that every frame `allocBuf` returns is invalid, or
valid, unpinned, with dirty content persisted and its old (owner, page)
entry removed from the PageIndex. The code violates the removal part: the
`hashTable->remove` call for a clean victim is commented out (line 86), so
on the reachable state below `allocBuf` returns the valid, unpinned, clean
frame 0 while `(7, 1)` still maps to frame 0 in the PageIndex. -/
theorem c1_allocBuf_keeps_stale_entry :
    (allocBuf (runOps 1 [Op.read 7 1, Op.unpin 7 1 false])).1 = .ok 0 ∧
    (((allocBuf (runOps 1 [Op.read 7 1, Op.unpin 7 1 false])).2.1.bufDescTable.getD
        0 default).valid = true ∧
      ((allocBuf (runOps 1 [Op.read 7 1, Op.unpin 7 1 false])).2.1.bufDescTable.getD
        0 default).pinCnt = 0) ∧
    htLookup (allocBuf (runOps 1 [Op.read 7 1, Op.unpin 7 1 false])).2.1.hashTable
      7 1 = some 0 := by
  decide

/-- C2: the claim states the invariant that every valid frame is indexed
under its (owner, pageNumber) key in every reachable state. The reachable
state below violates it: `flushFile` mutates a by-value copy of the
descriptor (`BufDesc frame = bufDescTable[i];`), so after
read, unpin, flushFile the frame is still marked valid for (7, 1) while the
PageIndex entry is gone. -/
theorem c2_invariant_broken_after_flush :
    ((runOps 1 [Op.read 7 1, Op.unpin 7 1 false, Op.flush 7]).bufDescTable.getD
        0 default).valid = true ∧
    ((runOps 1 [Op.read 7 1, Op.unpin 7 1 false, Op.flush 7]).bufDescTable.getD
        0 default).file = some 7 ∧
    ((runOps 1 [Op.read 7 1, Op.unpin 7 1 false, Op.flush 7]).bufDescTable.getD
        0 default).pageNo = 1 ∧
    htLookup (runOps 1 [Op.read 7 1, Op.unpin 7 1 false, Op.flush 7]).hashTable
      7 1 = none := by
  decide

/-- C3: the claim states that a successful `flushFile(f)` writes back dirty
pages with their dirty flags cleared and resets every descriptor owned by
`f` to the unoccupied state. On the input below the call succeeds, the page
is written and the PageIndex entry removed, but — because `flushFile`
mutates a by-value copy of the descriptor — the frame remains valid and its
dirty flag remains set. -/
theorem c3_flushFile_descriptor_not_reset :
    (flushFile 7 (runOps 1 [Op.read 7 1, Op.unpin 7 1 true])).1 = .ok () ∧
    writeCount (flushFile 7 (runOps 1 [Op.read 7 1, Op.unpin 7 1 true])).2.log = 1 ∧
    htLookup (flushFile 7 (runOps 1 [Op.read 7 1, Op.unpin 7 1 true])).2.hashTable
      7 1 = none ∧
    ((flushFile 7 (runOps 1 [Op.read 7 1, Op.unpin 7 1 true])).2.bufDescTable.getD
        0 default).dirty = true ∧
    ((flushFile 7 (runOps 1 [Op.read 7 1, Op.unpin 7 1 true])).2.bufDescTable.getD
        0 default).valid = true := by
  decide

/-- C4 counterexample: the claim bounds the replacement scan by at most
`numFrames` non-productive attempts. On the reachable all-pinned pool of
size 1 below, the scan performs 2 pin-skip attempts (the loop guard is
`count <= numBufs`) before throwing, exceeding `numFrames = 1`. -/
theorem c4_attempts_exceed_numframes :
    (runOps 1 [Op.read 7 1]).numBufs = 1 ∧
    (∀ d ∈ (runOps 1 [Op.read 7 1]).bufDescTable, d.valid = true ∧ 0 < d.pinCnt) ∧
    (allocBuf (runOps 1 [Op.read 7 1])).1 = .error .bufferExceeded ∧
    (allocBuf (runOps 1 [Op.read 7 1])).2.2 = 2 ∧
    ¬ (allocBuf (runOps 1 [Op.read 7 1])).2.2 ≤ (runOps 1 [Op.read 7 1]).numBufs := by
  decide

/-- C8: the claim states that `disposePage` asks the file layer to delete
the page unconditionally, in particular also when (f, p) is not in the
PageIndex. In the code `file->deletePage(PageNo)` is the last statement of
the `try` block, after the `hashTable->lookup` call, so a lookup miss jumps
to `catch` and the deletion is skipped: disposing the absent page (9, 5)
leaves the state untouched and performs zero `deletePage` calls. -/
theorem c8_disposePage_skips_delete :
    htLookup (initState 1).hashTable 9 5 = none ∧
    disposePage 9 5 false (initState 1) = initState 1 ∧
    deleteCount (disposePage 9 5 false (initState 1)).log = 0 := by
  decide

/-- Reading an updated list at the updated index. -/
theorem getD_set_self {α : Type} [Inhabited α] (l : List α) (i : Nat) (a : α)
    (h : i < l.length) : (l.set i a).getD i default = a := by
  simp [List.getD, List.getElem?_set_self, h]

/-- Reading an updated list at a different index. -/
theorem getD_set_ne {α : Type} [Inhabited α] (l : List α) (i j : Nat) (a : α)
    (h : i ≠ j) : (l.set i a).getD j default = l.getD j default := by
  simp [List.getD, List.getElem?_set_ne h]

/-- Replacing an element satisfying `p` by one that does not decrements the
`countP` by one. -/
theorem countP_set_false {α : Type} [Inhabited α] (p : α → Bool) (a : α) :
    ∀ (l : List α) (i : Nat), i < l.length → p (l.getD i default) = true →
      p a = false → (l.set i a).countP p + 1 = l.countP p := by
  intro l
  induction l with
  | nil => intro i h; simp at h
  | cons x xs ih =>
    intro i hlen hp hpa
    cases i with
    | zero =>
      simp [List.getD] at hp
      simp [List.countP_cons, hp, hpa]
    | succ j =>
      have hlen' : j < xs.length := by simpa using hlen
      have hp' : p (xs.getD j default) = true := by simpa [List.getD] using hp
      have := ih j hlen' hp' hpa
      simp only [List.set, List.countP_cons]
      omega

/-- The `allocBuf` loop never changes the pool size or the descriptor-table
length, and appends no read or delete events to the log. -/
theorem allocLoop_preserves : ∀ (fuel count : Nat) (s : State),
    (allocLoop fuel count s).2.1.numBufs = s.numBufs ∧
    (allocLoop fuel count s).2.1.bufDescTable.length = s.bufDescTable.length ∧
    readCount (allocLoop fuel count s).2.1.log = readCount s.log ∧
    deleteCount (allocLoop fuel count s).2.1.log = deleteCount s.log := by
  intro fuel
  induction fuel with
  | zero => intro count s; simp [allocLoop]
  | succ n ih =>
    intro count s
    simp only [allocLoop]
    split
    · split
      · split
        · refine ⟨(ih count _).1.trans ?_, (ih count _).2.1.trans ?_,
            (ih count _).2.2.1.trans ?_, (ih count _).2.2.2.trans ?_⟩ <;>
            simp [advanceClock]
        · split
          · refine ⟨(ih (count + 1) _).1.trans ?_, (ih (count + 1) _).2.1.trans ?_,
              (ih (count + 1) _).2.2.1.trans ?_, (ih (count + 1) _).2.2.2.trans ?_⟩ <;>
              simp [advanceClock]
          · split
            · simp [advanceClock, readCount, deleteCount, List.countP_append,
                Ev.isRead, Ev.isDelete]
            · simp [advanceClock]
      · simp [advanceClock]
    · simp

/-- The descriptor read by the `allocBuf` loop after a clock advance is a
member of the descriptor table. -/
theorem getD_hand_mem (s : State) (h0 : 0 < s.numBufs)
    (hlen : s.bufDescTable.length = s.numBufs) :
    s.bufDescTable.getD ((s.clockHand + 1) % s.numBufs) default ∈ s.bufDescTable := by
  have hhand : (s.clockHand + 1) % s.numBufs < s.bufDescTable.length := by
    rw [hlen]; exact Nat.mod_lt _ h0
  rw [List.getD_eq_getElem?_getD, List.getElem?_eq_getElem hhand]
  simp only [Option.getD_some]
  exact List.getElem_mem hhand

/-- A frame id returned by the `allocBuf` loop is in range. -/
theorem allocLoop_ok_lt : ∀ (fuel count : Nat) (s : State), 0 < s.numBufs →
    ∀ v s1 c, allocLoop fuel count s = (.ok v, s1, c) → v < s.numBufs := by
  intro fuel
  induction fuel with
  | zero => intro count s h0 v s1 c h; simp [allocLoop] at h
  | succ n ih =>
    intro count s h0 v s1 c h
    simp only [allocLoop, advanceClock] at h
    split at h
    · split at h
      · split at h
        · have hv := ih count _ (by simpa using h0) v s1 c h
          simpa using hv
        · split at h
          · have hv := ih (count + 1) _ (by simpa using h0) v s1 c h
            simpa using hv
          · split at h
            · simp only [Prod.mk.injEq, Except.ok.injEq] at h
              rw [← h.1]
              exact Nat.mod_lt _ h0
            · simp only [Prod.mk.injEq, Except.ok.injEq] at h
              rw [← h.1]
              exact Nat.mod_lt _ h0
      · simp only [Prod.mk.injEq, Except.ok.injEq] at h
        rw [← h.1]
        exact Nat.mod_lt _ h0
    · simp at h

/-- When every frame is valid and pinned, the `allocBuf` loop terminates by
throwing `BufferExceededException`, with the skip counter ending at
`numBufs + 1`: the guard `count <= numBufs` admits `numBufs + 1` pin-skips. -/
theorem allocLoop_allPinned : ∀ (fuel count : Nat) (s : State),
    0 < s.numBufs → s.bufDescTable.length = s.numBufs →
    (∀ d ∈ s.bufDescTable, d.valid = true ∧ 0 < d.pinCnt) →
    count ≤ s.numBufs + 1 →
    s.numBufs + 1 - count + s.bufDescTable.countP (fun d => d.refbit) < fuel →
    ∃ s1, allocLoop fuel count s = (.error .bufferExceeded, s1, s.numBufs + 1) := by
  intro fuel
  induction fuel with
  | zero => intro count s h0 hlen hAll hcnt hfuel; omega
  | succ n ih =>
    intro count s h0 hlen hAll hcnt hfuel
    have hhand : (s.clockHand + 1) % s.numBufs < s.bufDescTable.length := by
      rw [hlen]; exact Nat.mod_lt _ h0
    obtain ⟨hval, hpin⟩ := hAll _ (getD_hand_mem s h0 hlen)
    simp only [allocLoop, advanceClock]
    split
    · split
      · -- reference bit set: cleared, loop continues on the updated table
        rename_i hr
        refine ih count _ (by simpa using h0) ?_ ?_ ?_ ?_
        · simpa [List.length_set] using hlen
        · intro d hd
          rcases List.mem_or_eq_of_mem_set hd with hmem | heq
          · exact hAll _ hmem
          · rw [heq]; exact ⟨hval, hpin⟩
        · simpa using hcnt
        · have hdec := countP_set_false (fun d => d.refbit)
            { frameNo := (s.bufDescTable.getD ((s.clockHand + 1) % s.numBufs) default).frameNo,
              file := (s.bufDescTable.getD ((s.clockHand + 1) % s.numBufs) default).file,
              pageNo := (s.bufDescTable.getD ((s.clockHand + 1) % s.numBufs) default).pageNo,
              pinCnt := (s.bufDescTable.getD ((s.clockHand + 1) % s.numBufs) default).pinCnt,
              valid := (s.bufDescTable.getD ((s.clockHand + 1) % s.numBufs) default).valid,
              refbit := false,
              dirty := (s.bufDescTable.getD ((s.clockHand + 1) % s.numBufs) default).dirty }
            s.bufDescTable ((s.clockHand + 1) % s.numBufs) hhand hr rfl
          simp only []
          omega
      · -- pinned frame: skipped, counter bumped
        rename_i hc hr
        refine ih (count + 1) _ (by simpa using h0) (by simpa using hlen)
          (by simpa using hAll) (by simp only []; omega) (by simp only []; omega)
    · -- guard failed: count = numBufs + 1, exception thrown
      refine ⟨s, ?_⟩
      have hceq : count = s.numBufs + 1 := by omega
      rw [hceq]

/-- C4 (amended): when every frame of a well-formed pool is valid and
pinned, the replacement scan fails with `BufferExceededException`
(PoolExhausted) rather than looping, after at most `numFrames + 1`
non-productive pin-skip attempts (the counter ends at exactly
`numBufs + 1`); in particular, on a pool of size 3 with 3 distinct pages
fetched and never unpinned, fetching a 4th distinct page fails with
PoolExhausted. -/
theorem c4_pool_exhausted :
    (∀ s : State, WF s → (∀ d ∈ s.bufDescTable, d.valid = true ∧ 0 < d.pinCnt) →
      ∃ s1, allocBuf s = (.error .bufferExceeded, s1, s.numBufs + 1)) ∧
    (readPage 7 4 (runOps 3 [Op.read 7 1, Op.read 7 2, Op.read 7 3])).1 =
      .error .bufferExceeded := by
  constructor
  · intro s hwf hAll
    obtain ⟨h0, hlen, -, -⟩ := hwf
    refine allocLoop_allPinned _ 0 s h0 hlen hAll (by omega) ?_
    have hle := List.countP_le_length (l := s.bufDescTable) (fun d => d.refbit)
    omega
  · decide

/-- Witness for C4: the all-pinned hypotheses are satisfied by the
reachable pool of size 1 holding one pinned page. -/
theorem c4_pool_exhausted_witness :
    ∃ s1, allocBuf (runOps 1 [Op.read 7 1]) =
      (.error .bufferExceeded, s1, (runOps 1 [Op.read 7 1]).numBufs + 1) :=
  c4_pool_exhausted.1 (runOps 1 [Op.read 7 1]) (by decide) (by decide)

/-- C5: on a hit, `readPage` increments the indexed frame's pin count by
exactly 1, sets its reference bit, returns that same frame, and changes
nothing else (in particular it performs zero file reads: state and log are
otherwise untouched). On a miss with a successful `allocBuf`, it performs
exactly one file read, inserts (f, p) into the PageIndex mapped to the
victim frame, and initializes the victim's descriptor with `pinCnt = 1`,
`refbit = true`, `dirty = false`, `file = f`, `pageNo = p`, `valid = true`. -/
theorem c5_readPage_hit_miss :
    ∀ (s : State) (f : FileId) (p : PageId), WF s →
    ((∀ i, htLookup s.hashTable f p = some i →
       readPage f p s =
         (.ok i,
          { s with bufDescTable := (s.bufDescTable.set i
              { s.bufDescTable.getD i default with
                  pinCnt := (s.bufDescTable.getD i default).pinCnt + 1,
                  refbit := true }) })) ∧
     (htLookup s.hashTable f p = none →
       ∀ v s1 c, allocBuf s = (.ok v, s1, c) →
         readPage f p s =
           (.ok v,
            { s1 with
                hashTable := ((f, p), v) :: s1.hashTable,
                log := (s1.log ++ [Ev.read f p]) ++ [Ev.hInsert f p v],
                bufDescTable := s1.bufDescTable.set v (setDesc v f p) }) ∧
         (readPage f p s).2.bufDescTable.getD v default = setDesc v f p ∧
         htLookup (readPage f p s).2.hashTable f p = some v ∧
         readCount (readPage f p s).2.log = readCount s.log + 1)) := by
  intro s f p hwf
  obtain ⟨h0, hlen, -, -⟩ := hwf
  constructor
  · intro i hl
    simp [readPage, hl]
  · intro hl v s1 c halloc
    have hv : v < s.numBufs := allocLoop_ok_lt _ 0 s h0 v s1 c halloc
    have hpres := allocLoop_preserves (2 * s.numBufs + 3) 0 s
    rw [show allocLoop (2 * s.numBufs + 3) 0 s = allocBuf s from rfl, halloc] at hpres
    obtain ⟨hnb0, hlen10, hrc0, -⟩ := hpres
    have hnb : s1.numBufs = s.numBufs := hnb0
    have hlen1 : s1.bufDescTable.length = s.bufDescTable.length := hlen10
    have hrc : readCount s1.log = readCount s.log := hrc0
    have heq : readPage f p s =
        (.ok v,
         { s1 with
            hashTable := ((f, p), v) :: s1.hashTable,
            log := (s1.log ++ [Ev.read f p]) ++ [Ev.hInsert f p v],
            bufDescTable := s1.bufDescTable.set v (setDesc v f p) }) := by
      simp only [readPage, hl, halloc]
    refine ⟨heq, ?_, ?_, ?_⟩
    · rw [heq]
      exact getD_set_self s1.bufDescTable v (setDesc v f p) (by rw [hlen1, hlen]; exact hv)
    · rw [heq]
      simp [htLookup]
    · rw [heq]
      simp only [readCount, List.countP_append] at hrc ⊢
      simp [Ev.isRead, hrc]

/-- Witness for C5: the hit branch on a pool holding (7, 1), and the miss
branch fetching (7, 2) into the frame freed by an unpin. -/
theorem c5_readPage_witness :
    readPage 7 1 (runOps 1 [Op.read 7 1]) =
      (.ok 0,
       { runOps 1 [Op.read 7 1] with
          bufDescTable := ((runOps 1 [Op.read 7 1]).bufDescTable.set 0
            { (runOps 1 [Op.read 7 1]).bufDescTable.getD 0 default with
                pinCnt := ((runOps 1 [Op.read 7 1]).bufDescTable.getD 0 default).pinCnt + 1,
                refbit := true }) }) ∧
    htLookup (readPage 7 2 (runOps 1 [Op.read 7 1, Op.unpin 7 1 false])).2.hashTable
      7 2 = some 0 ∧
    readCount (readPage 7 2 (runOps 1 [Op.read 7 1, Op.unpin 7 1 false])).2.log =
      readCount (runOps 1 [Op.read 7 1, Op.unpin 7 1 false]).log + 1 :=
  ⟨(c5_readPage_hit_miss (runOps 1 [Op.read 7 1]) 7 1 (by decide)).1 0 (by decide),
   ((c5_readPage_hit_miss (runOps 1 [Op.read 7 1, Op.unpin 7 1 false]) 7 2
       (by decide)).2 (by decide) 0
       (allocBuf (runOps 1 [Op.read 7 1, Op.unpin 7 1 false])).2.1
       (allocBuf (runOps 1 [Op.read 7 1, Op.unpin 7 1 false])).2.2
       (by decide)).2.2.1,
   ((c5_readPage_hit_miss (runOps 1 [Op.read 7 1, Op.unpin 7 1 false]) 7 2
       (by decide)).2 (by decide) 0
       (allocBuf (runOps 1 [Op.read 7 1, Op.unpin 7 1 false])).2.1
       (allocBuf (runOps 1 [Op.read 7 1, Op.unpin 7 1 false])).2.2
       (by decide)).2.2.2⟩

/-- C6: `unPinPage` is a silent no-op when (f, p) is not resident; when
resident it fails with `PageNotPinnedException` exactly when the pin count
is zero, leaving the state unchanged, and otherwise decrements the pin
count by 1 and ors the dirty flag with `markDirty` (so the dirty flag is
never cleared by unpinning), touching no other field. -/
theorem c6_unPinPage_cases :
    ∀ (s : State) (f : FileId) (p : PageId) (md : Bool),
    ((htLookup s.hashTable f p = none → unPinPage f p md s = (.ok (), s)) ∧
     (∀ i, htLookup s.hashTable f p = some i →
       (((s.bufDescTable.getD i default).pinCnt = 0 →
          unPinPage f p md s = (.error (.pageNotPinned f p i), s)) ∧
        (0 < (s.bufDescTable.getD i default).pinCnt →
          ∃ d2, unPinPage f p md s =
              (.ok (), { s with bufDescTable := s.bufDescTable.set i d2 }) ∧
            d2.pinCnt = (s.bufDescTable.getD i default).pinCnt - 1 ∧
            d2.dirty = ((s.bufDescTable.getD i default).dirty || md) ∧
            d2.valid = (s.bufDescTable.getD i default).valid ∧
            d2.refbit = (s.bufDescTable.getD i default).refbit ∧
            d2.file = (s.bufDescTable.getD i default).file ∧
            d2.pageNo = (s.bufDescTable.getD i default).pageNo)))) := by
  intro s f p md
  constructor
  · intro hl
    simp [unPinPage, hl]
  · intro i hl
    constructor
    · intro hz
      simp [unPinPage, hl, ← List.getD_eq_getElem?_getD, hz]
    · intro hpos
      refine ⟨if md then
          { s.bufDescTable.getD i default with
              pinCnt := (s.bufDescTable.getD i default).pinCnt - 1, dirty := true }
        else
          { s.bufDescTable.getD i default with
              pinCnt := (s.bufDescTable.getD i default).pinCnt - 1 }, ?_, ?_, ?_, ?_, ?_, ?_, ?_⟩ <;>
        cases md <;>
        simp [unPinPage, hl, ← List.getD_eq_getElem?_getD, Nat.pos_iff_ne_zero.mp hpos]

/-- Witness for C6: all three branches on concrete reachable pools — a
non-resident page, a resident unpinned page, and a resident pinned page. -/
theorem c6_unPinPage_witness :
    unPinPage 9 5 true (runOps 1 [Op.read 7 1]) = (.ok (), runOps 1 [Op.read 7 1]) ∧
    unPinPage 7 1 false (runOps 1 [Op.read 7 1, Op.unpin 7 1 false]) =
      (.error (.pageNotPinned 7 1 0), runOps 1 [Op.read 7 1, Op.unpin 7 1 false]) ∧
    ∃ d2, unPinPage 7 1 true (runOps 1 [Op.read 7 1]) =
        (.ok (), { runOps 1 [Op.read 7 1] with
            bufDescTable := (runOps 1 [Op.read 7 1]).bufDescTable.set 0 d2 }) ∧
      d2.pinCnt = ((runOps 1 [Op.read 7 1]).bufDescTable.getD 0 default).pinCnt - 1 ∧
      d2.dirty = (((runOps 1 [Op.read 7 1]).bufDescTable.getD 0 default).dirty || true) ∧
      d2.valid = ((runOps 1 [Op.read 7 1]).bufDescTable.getD 0 default).valid ∧
      d2.refbit = ((runOps 1 [Op.read 7 1]).bufDescTable.getD 0 default).refbit ∧
      d2.file = ((runOps 1 [Op.read 7 1]).bufDescTable.getD 0 default).file ∧
      d2.pageNo = ((runOps 1 [Op.read 7 1]).bufDescTable.getD 0 default).pageNo :=
  ⟨(c6_unPinPage_cases (runOps 1 [Op.read 7 1]) 9 5 true).1 (by decide),
   ((c6_unPinPage_cases (runOps 1 [Op.read 7 1, Op.unpin 7 1 false]) 7 1 false).2 0
     (by decide)).1 (by decide),
   ((c6_unPinPage_cases (runOps 1 [Op.read 7 1]) 7 1 true).2 0 (by decide)).2 (by decide)⟩

/-- The `flushFile` loop never changes the descriptor table or the pool
size: the source mutates only a by-value copy of each descriptor. -/
theorem flushLoop_frames : ∀ (fuel i : Nat) (f : FileId) (s : State),
    (flushLoop f fuel i s).2.bufDescTable = s.bufDescTable ∧
    (flushLoop f fuel i s).2.numBufs = s.numBufs := by
  intro fuel
  induction fuel with
  | zero => intro i f s; simp [flushLoop]
  | succ n ih =>
    intro i f s
    simp only [flushLoop]
    split
    · split
      · split
        · split
          · simp
          · constructor
            · refine (ih (i + 1) f _).1.trans ?_
              by_cases hd : ((s.bufDescTable.getD i default).dirty = true)
              · rw [if_pos hd]
              · rw [if_neg hd]
            · refine (ih (i + 1) f _).2.trans ?_
              by_cases hd : ((s.bufDescTable.getD i default).dirty = true)
              · rw [if_pos hd]
              · rw [if_neg hd]
        · exact ih (i + 1) f s
      · simp
    · simp

/-- Splitting the `flushFile` loop at an index all of whose predecessors
are valid and, when owned by `f`, unpinned: the loop runs the prefix and
continues from its state. -/
theorem flushLoop_prefix : ∀ (a fuel i : Nat) (f : FileId) (s : State),
    i + a ≤ s.numBufs →
    (∀ j, i ≤ j → j < i + a →
      (s.bufDescTable.getD j default).valid = true ∧
      ((s.bufDescTable.getD j default).file = some f →
        (s.bufDescTable.getD j default).pinCnt = 0)) →
    flushLoop f (a + fuel) i s = flushLoop f fuel (i + a) (flushLoop f a i s).2 := by
  intro a
  induction a with
  | zero => intro fuel i f s hle hgood; simp [flushLoop]
  | succ n ih =>
    intro fuel i f s hle hgood
    obtain ⟨hv, hp⟩ := hgood i (le_refl i) (by omega)
    have hlt : i < s.numBufs := by omega
    rw [show n + 1 + fuel = (n + fuel) + 1 from by omega]
    simp only [flushLoop]
    rw [if_pos hlt, if_pos hv]
    by_cases hf : (s.bufDescTable.getD i default).file = some f
    · have hnot : ¬((s.bufDescTable.getD i default).pinCnt ≠ 0) := fun h => h (hp hf)
      rw [if_pos hf, if_neg hnot]
      rw [if_pos hlt, if_pos hv, if_pos hf, if_neg hnot]
      rw [show i + (n + 1) = (i + 1) + n from by omega]
      by_cases hd : ((s.bufDescTable.getD i default).dirty = true)
      · rw [if_pos hd]
        refine ih fuel (i + 1) f _ ?_ ?_
        · exact (show (i + 1) + n ≤ s.numBufs from by omega)
        · exact fun j h1 h2 => hgood j (by omega) (by omega)
      · rw [if_neg hd]
        refine ih fuel (i + 1) f _ ?_ ?_
        · exact (show (i + 1) + n ≤ s.numBufs from by omega)
        · exact fun j h1 h2 => hgood j (by omega) (by omega)
    · rw [if_neg hf]
      rw [if_pos hlt, if_pos hv, if_neg hf]
      rw [show i + (n + 1) = (i + 1) + n from by omega]
      exact ih fuel (i + 1) f s (by omega)
        (fun j h1 h2 => hgood j (by omega) (by omega))

/-- State after the `flushFile` scan has processed frames `0 .. k-1`. -/
def flushPrefix (f : FileId) (k : Nat) (s : State) : State :=
  (flushLoop f k 0 s).2

/-- C7: when `k` is the first frame in frame-id order that violates the
scan's checks, `flushFile f` fails with `BadBufferException` (CorruptFrame)
if frame `k` is invalid — regardless of which file owns it — and with
`PagePinnedException` (StillPinned) if frame `k` is owned by `f` and still
pinned; in both cases the returned state is exactly the state after
processing frames `0 .. k-1`, i.e. the effects already applied to earlier
frames are kept and nothing is rolled back. -/
theorem c7_flushFile_failure :
    ∀ (s : State) (f : FileId) (k : Nat), WF s → k < s.numBufs →
    (∀ j, j < k → (s.bufDescTable.getD j default).valid = true ∧
      ((s.bufDescTable.getD j default).file = some f →
        (s.bufDescTable.getD j default).pinCnt = 0)) →
    (((s.bufDescTable.getD k default).valid = false →
       flushFile f s = (.error (.badBuffer k), flushPrefix f k s)) ∧
     ((s.bufDescTable.getD k default).valid = true →
      (s.bufDescTable.getD k default).file = some f →
      (s.bufDescTable.getD k default).pinCnt ≠ 0 →
       flushFile f s =
         (.error (.pagePinned f (s.bufDescTable.getD k default).pageNo k),
          flushPrefix f k s))) := by
  intro s f k hwf hk hgood
  obtain ⟨h0, hlen, -, -⟩ := hwf
  obtain ⟨htab, hnb⟩ := flushLoop_frames k 0 f s
  have hdecomp : flushFile f s =
      flushLoop f (s.numBufs - k) k (flushLoop f k 0 s).2 := by
    rw [flushFile, show s.numBufs = k + (s.numBufs - k) from by omega]
    have h := flushLoop_prefix k (s.numBufs - k) 0 f s (by omega)
      (fun j h1 h2 => hgood j (by omega))
    simpa using h
  obtain ⟨m, hm⟩ : ∃ m, s.numBufs - k = m + 1 := ⟨s.numBufs - k - 1, by omega⟩
  have hklt : k < (flushLoop f k 0 s).2.numBufs := by rw [hnb]; exact hk
  constructor
  · intro hinv
    rw [hdecomp, hm]
    simp only [flushLoop]
    rw [if_pos hklt, htab, if_neg (by rw [hinv]; simp)]
    rfl
  · intro hval hfile hpin
    rw [hdecomp, hm]
    simp only [flushLoop]
    rw [if_pos hklt, htab, if_pos hval, if_pos hfile, if_pos hpin]
    rfl

/-- Witness for C7: on a reachable pool of size 2 with page (7, 1) pinned
in frame 0 and frame 1 never filled, the scan fails already at frame 0 with
StillPinned; on a fresh pool it fails at frame 0 with CorruptFrame. -/
theorem c7_flushFile_failure_witness :
    flushFile 7 (runOps 2 [Op.read 7 1]) =
      (.error (.pagePinned 7 1 0), flushPrefix 7 0 (runOps 2 [Op.read 7 1])) ∧
    flushFile 9 (initState 1) =
      (.error (.badBuffer 0), flushPrefix 9 0 (initState 1)) :=
  ⟨(c7_flushFile_failure (runOps 2 [Op.read 7 1]) 7 0 (by decide) (by decide)
      (by intro j hj; omega)).2 (by decide) (by decide) (by decide),
   (c7_flushFile_failure (initState 1) 9 0 (by decide) (by decide)
      (by intro j hj; omega)).1 (by decide)⟩

/-- Clearing the reference bit of one descriptor changes no other field of
any descriptor read from the table. -/
theorem getD_clearRef (l : List BufDesc) (i v : Nat) (h : i < l.length) :
    ((l.set i
      { frameNo := (l.getD i default).frameNo, file := (l.getD i default).file,
        pageNo := (l.getD i default).pageNo, pinCnt := (l.getD i default).pinCnt,
        valid := (l.getD i default).valid, refbit := false,
        dirty := (l.getD i default).dirty }).getD v default).valid
      = (l.getD v default).valid ∧
    ((l.set i
      { frameNo := (l.getD i default).frameNo, file := (l.getD i default).file,
        pageNo := (l.getD i default).pageNo, pinCnt := (l.getD i default).pinCnt,
        valid := (l.getD i default).valid, refbit := false,
        dirty := (l.getD i default).dirty }).getD v default).file
      = (l.getD v default).file ∧
    ((l.set i
      { frameNo := (l.getD i default).frameNo, file := (l.getD i default).file,
        pageNo := (l.getD i default).pageNo, pinCnt := (l.getD i default).pinCnt,
        valid := (l.getD i default).valid, refbit := false,
        dirty := (l.getD i default).dirty }).getD v default).pageNo
      = (l.getD v default).pageNo ∧
    ((l.set i
      { frameNo := (l.getD i default).frameNo, file := (l.getD i default).file,
        pageNo := (l.getD i default).pageNo, pinCnt := (l.getD i default).pinCnt,
        valid := (l.getD i default).valid, refbit := false,
        dirty := (l.getD i default).dirty }).getD v default).dirty
      = (l.getD v default).dirty := by
  by_cases hvi : i = v
  · subst hvi
    rw [getD_set_self l i _ h]
    exact ⟨rfl, rfl, rfl, rfl⟩
  · rw [getD_set_ne l i v _ hvi]
    exact ⟨rfl, rfl, rfl, rfl⟩

/-- When the `allocBuf` loop returns a frame that was valid at entry, the
dirty victim is written back and unindexed — the log gains exactly the
write event followed by the hash-removal event, and the victim's dirty bit
is cleared — while the clean victim produces no events at all. The owner,
page number and dirty flag of the victim are abstracted as `fo`, `po`,
`dy` so that the statement is stable under the loop's reference-bit
clearing. -/
theorem allocLoop_victim : ∀ (fuel count : Nat) (s : State) (v : FrameId)
    (s1 : State) (c : Nat) (fo : Option FileId) (po : PageId) (dy : Bool),
    0 < s.numBufs → s.bufDescTable.length = s.numBufs →
    allocLoop fuel count s = (.ok v, s1, c) →
    (s.bufDescTable.getD v default).valid = true →
    (s.bufDescTable.getD v default).file = fo →
    (s.bufDescTable.getD v default).pageNo = po →
    (s.bufDescTable.getD v default).dirty = dy →
    ((dy = true →
       s1.log = s.log ++ [Ev.write fo po, Ev.hRemove fo po] ∧
       s1.hashTable = htRemoveOpt s.hashTable fo po ∧
       (s1.bufDescTable.getD v default).dirty = false) ∧
     (dy = false → s1.log = s.log)) := by
  intro fuel
  induction fuel with
  | zero =>
    intro count s v s1 c fo po dy h0 hlen h hval hfo hpo hdy
    simp [allocLoop] at h
  | succ n ih =>
    intro count s v s1 c fo po dy h0 hlen h hval hfo hpo hdy
    have hhand : (s.clockHand + 1) % s.numBufs < s.bufDescTable.length := by
      rw [hlen]; exact Nat.mod_lt _ h0
    simp only [allocLoop, advanceClock] at h
    split at h
    · split at h
      · split at h
        · -- reference bit cleared, loop continues on the updated table
          obtain ⟨hV, hF, hP, hD⟩ :=
            getD_clearRef s.bufDescTable ((s.clockHand + 1) % s.numBufs) v hhand
          exact ih count
            { numBufs := s.numBufs,
              bufDescTable := s.bufDescTable.set ((s.clockHand + 1) % s.numBufs)
                { frameNo := (s.bufDescTable.getD ((s.clockHand + 1) % s.numBufs)
                    default).frameNo,
                  file := (s.bufDescTable.getD ((s.clockHand + 1) % s.numBufs)
                    default).file,
                  pageNo := (s.bufDescTable.getD ((s.clockHand + 1) % s.numBufs)
                    default).pageNo,
                  pinCnt := (s.bufDescTable.getD ((s.clockHand + 1) % s.numBufs)
                    default).pinCnt,
                  valid := (s.bufDescTable.getD ((s.clockHand + 1) % s.numBufs)
                    default).valid,
                  refbit := false,
                  dirty := (s.bufDescTable.getD ((s.clockHand + 1) % s.numBufs)
                    default).dirty },
              hashTable := s.hashTable, clockHand := (s.clockHand + 1) % s.numBufs,
              log := s.log }
            v s1 c fo po dy h0 ((List.length_set _ _ _).trans hlen) h
            (hV.trans hval) (hF.trans hfo) (hP.trans hpo) (hD.trans hdy)
        · split at h
          · -- pinned frame skipped, only the clock hand moved
            exact ih (count + 1)
              { numBufs := s.numBufs, bufDescTable := s.bufDescTable,
                hashTable := s.hashTable,
                clockHand := (s.clockHand + 1) % s.numBufs, log := s.log }
              v s1 c fo po dy h0 hlen h hval hfo hpo hdy
          · split at h
            · -- dirty victim: write then hash removal, dirty bit cleared
              rename_i hp hd
              simp only [Prod.mk.injEq, Except.ok.injEq] at h
              obtain ⟨hveq, hs1, -⟩ := h
              subst hveq
              refine ⟨fun hdy2 => ?_, fun hcl => ?_⟩
              · refine ⟨?_, ?_, ?_⟩
                · rw [← hs1, ← hfo, ← hpo]
                · rw [← hs1, ← hfo, ← hpo]
                · rw [← hs1]
                  exact congrArg BufDesc.dirty
                    (getD_set_self s.bufDescTable ((s.clockHand + 1) % s.numBufs)
                      { s.bufDescTable.getD ((s.clockHand + 1) % s.numBufs) default with
                          dirty := false } hhand)
              · exact absurd (hdy.symm.trans hd) (by simp [hcl])
            · -- clean victim: nothing recorded, hash entry left in place
              rename_i hp hd
              simp only [Prod.mk.injEq, Except.ok.injEq] at h
              obtain ⟨hveq, hs1, -⟩ := h
              subst hveq
              refine ⟨fun hdy2 => ?_, fun hcl => ?_⟩
              · exact absurd (hdy.trans hdy2) hd
              · rw [← hs1]
      · -- invalid frame claimed: contradicts the validity hypothesis
        rename_i hvd
        simp only [Prod.mk.injEq, Except.ok.injEq] at h
        obtain ⟨hveq, hs1, -⟩ := h
        subst hveq
        exact absurd hval hvd
    · simp at h

/-- C9: whenever the replacement algorithm returns a frame that was valid
(an eviction victim), then, if the victim's dirty bit was set, exactly one
write of the owning file is performed before the frame is reused, the
PageIndex removal comes after the write (the log gains exactly the write
event followed by the removal event), and the dirty bit is false
afterwards; if the dirty bit was clear, no write occurs (the log is
unchanged). -/
theorem c9_eviction_write_back :
    ∀ (s : State) (v : FrameId) (s1 : State) (c : Nat), WF s →
    allocBuf s = (.ok v, s1, c) →
    (s.bufDescTable.getD v default).valid = true →
    (((s.bufDescTable.getD v default).dirty = true →
       s1.log = s.log ++
         [Ev.write (s.bufDescTable.getD v default).file
            (s.bufDescTable.getD v default).pageNo,
          Ev.hRemove (s.bufDescTable.getD v default).file
            (s.bufDescTable.getD v default).pageNo] ∧
       s1.hashTable = htRemoveOpt s.hashTable
         (s.bufDescTable.getD v default).file
         (s.bufDescTable.getD v default).pageNo ∧
       (s1.bufDescTable.getD v default).dirty = false) ∧
     ((s.bufDescTable.getD v default).dirty = false → s1.log = s.log)) := by
  intro s v s1 c hwf h hval
  obtain ⟨h0, hlen, -, -⟩ := hwf
  exact allocLoop_victim (2 * s.numBufs + 3) 0 s v s1 c
    (s.bufDescTable.getD v default).file
    (s.bufDescTable.getD v default).pageNo
    (s.bufDescTable.getD v default).dirty
    h0 hlen h hval rfl rfl rfl

/-- Witness for C9: a dirty victim (page (7, 1) unpinned dirty) is written
back exactly once before reuse, and a clean victim (page (8, 1) unpinned
clean) is evicted without any write. -/
theorem c9_eviction_write_back_witness :
    ((allocBuf (runOps 1 [Op.read 7 1, Op.unpin 7 1 true])).2.1.log =
       (runOps 1 [Op.read 7 1, Op.unpin 7 1 true]).log ++
         [Ev.write (some 7) 1, Ev.hRemove (some 7) 1] ∧
     (allocBuf (runOps 1 [Op.read 7 1, Op.unpin 7 1 true])).2.1.hashTable =
       htRemoveOpt (runOps 1 [Op.read 7 1, Op.unpin 7 1 true]).hashTable (some 7) 1 ∧
     ((allocBuf (runOps 1 [Op.read 7 1, Op.unpin 7 1 true])).2.1.bufDescTable.getD
        0 default).dirty = false) ∧
    (allocBuf (runOps 1 [Op.read 8 1, Op.unpin 8 1 false])).2.1.log =
      (runOps 1 [Op.read 8 1, Op.unpin 8 1 false]).log :=
  ⟨(c9_eviction_write_back (runOps 1 [Op.read 7 1, Op.unpin 7 1 true]) 0
      (allocBuf (runOps 1 [Op.read 7 1, Op.unpin 7 1 true])).2.1
      (allocBuf (runOps 1 [Op.read 7 1, Op.unpin 7 1 true])).2.2
      (by decide) (by decide) (by decide)).1 (by decide),
   (c9_eviction_write_back (runOps 1 [Op.read 8 1, Op.unpin 8 1 false]) 0
      (allocBuf (runOps 1 [Op.read 8 1, Op.unpin 8 1 false])).2.1
      (allocBuf (runOps 1 [Op.read 8 1, Op.unpin 8 1 false])).2.2
      (by decide) (by decide) (by decide)).2 (by decide)⟩

/-- A successful PageIndex lookup names an entry of the table. -/
theorem htLookup_mem (tbl : List ((FileId × PageId) × FrameId)) (f : FileId)
    (p : PageId) (i : FrameId) : htLookup tbl f p = some i → ((f, p), i) ∈ tbl := by
  induction tbl with
  | nil => intro h; simp [htLookup] at h
  | cons e rest ih =>
    intro h
    obtain ⟨k, fr⟩ := e
    by_cases hk : k = (f, p)
    · subst hk
      simp [htLookup] at h
      subst h
      exact List.mem_cons_self _ _
    · simp only [htLookup, if_neg hk] at h
      exact List.mem_cons_of_mem _ (ih h)

/-- C10: when `disposePage` finds (f, p) resident and the on-disk
`deletePage` call then fails, the exception is swallowed (the call still
returns normally, as it always does) and the pool-side changes persist:
the PageIndex entry is removed, the descriptor is reset to the unoccupied
state, and the resulting state is identical to the one produced when
`deletePage` succeeds — nothing is rolled back. -/
theorem c10_disposePage_swallows_delete_failure :
    ∀ (s : State) (f : FileId) (p : PageId) (i : FrameId), WF s →
    htLookup s.hashTable f p = some i →
    (disposePage f p true s = disposePage f p false s ∧
     (disposePage f p true s).hashTable = htRemove s.hashTable f p ∧
     (disposePage f p true s).bufDescTable.getD i default = clearDesc i ∧
     deleteCount (disposePage f p true s).log = deleteCount s.log + 1) := by
  intro s f p i hwf hl
  obtain ⟨h0, hlen, -, hht⟩ := hwf
  have hi : i < s.bufDescTable.length := by
    rw [hlen]
    exact hht ((f, p), i) (htLookup_mem s.hashTable f p i hl)
  refine ⟨?_, ?_, ?_, ?_⟩
  · simp [disposePage, hl]
  · simp [disposePage, hl]
  · simp only [disposePage, hl]
    exact getD_set_self s.bufDescTable i (clearDesc i) hi
  · simp [disposePage, hl, deleteCount, List.countP_append, Ev.isDelete]

/-- Witness for C10: disposing the resident page (7, 1) with a failing
on-disk deletion still removes the index entry and clears frame 0. -/
theorem c10_disposePage_witness :
    disposePage 7 1 true (runOps 1 [Op.read 7 1]) =
      disposePage 7 1 false (runOps 1 [Op.read 7 1]) ∧
    (disposePage 7 1 true (runOps 1 [Op.read 7 1])).hashTable =
      htRemove (runOps 1 [Op.read 7 1]).hashTable 7 1 ∧
    (disposePage 7 1 true (runOps 1 [Op.read 7 1])).bufDescTable.getD 0 default =
      clearDesc 0 ∧
    deleteCount (disposePage 7 1 true (runOps 1 [Op.read 7 1])).log =
      deleteCount (runOps 1 [Op.read 7 1]).log + 1 :=
  c10_disposePage_swallows_delete_failure (runOps 1 [Op.read 7 1]) 7 1 0
    (by decide) (by decide)
